import Mathlib

/-!
Verification of the support-frontend client: the conversation flow engine
(`processUserInput`, `validateInput`, `detectCategory`, `generateIssueTitle`,
`getProgressPercentage`), the API client retry loop (`ApiClient.request`),
and the ticket collection view-model (`loadTickets`, `updateTicket`,
`filteredTickets`), shallowly embedded from the TypeScript source
(`src/app/lib/api.ts`, `src/app/types/chat.ts`, `src/app/types/ticket.ts`,
and the `useTickets` hook).

JavaScript strings are modelled by Lean `String` / `List Char`; `.trim()`,
`.replace(/\s+/g, ' ')`, `.toLowerCase()`, `.includes()` and `.split('.')[0]`
are given explicit structural-recursive models below.  Nondeterministic
values (uuid identifiers, `Date` timestamps) do not influence any verified
property and are omitted from the state records.
-/

namespace SupportFrontend

/-! ### JS string primitives -/

/-- JS `\s` / whitespace class, as used by `String.prototype.trim` and the
`/\s+/g` regex. -/
def isWs (c : Char) : Bool := c.isWhitespace

/-- Drop leading whitespace (left half of JS `trim`). -/
def trimLeftChars (l : List Char) : List Char := l.dropWhile isWs

/-- Drop trailing whitespace (right half of JS `trim`). -/
def trimRightChars (l : List Char) : List Char :=
  (l.reverse.dropWhile isWs).reverse

/-- JS `String.prototype.trim` on character lists. -/
def trimChars (l : List Char) : List Char := trimRightChars (trimLeftChars l)

/-- JS `String.prototype.trim`. -/
def jsTrim (s : String) : String := String.mk (trimChars s.data)

/-- `replace(/\s+/g, ' ')`: each maximal whitespace run becomes one space.
The flag records whether the previous character was part of a whitespace
run (in which case further whitespace is absorbed). -/
def collapseWsAux : Bool → List Char → List Char
  | _, [] => []
  | prevWs, c :: t =>
    if isWs c then
      if prevWs then collapseWsAux true t
      else ' ' :: collapseWsAux true t
    else c :: collapseWsAux false t

/-- `description.trim().replace(/\s+/g, ' ')` from `generateIssueTitle`. -/
def cleanChars (l : List Char) : List Char := collapseWsAux false (trimChars l)

/-- Does `hay` start with `needle`?  (JS `startsWith`, helper for
`includes`.) -/
def listStartsWith : List Char → List Char → Bool
  | _, [] => true
  | [], _ :: _ => false
  | c :: hs, d :: ns => c == d && listStartsWith hs ns

/-- Substring containment on character lists (JS `String.prototype.includes`). -/
def listContainsSub : List Char → List Char → Bool
  | [], needle => needle.isEmpty
  | c :: t, needle => listStartsWith (c :: t) needle || listContainsSub t needle

/-- JS `hay.includes(needle)`. -/
def strContains (hay needle : String) : Bool := listContainsSub hay.data needle.data

/-- JS `String.prototype.toLowerCase` (character-wise, as `String.toLower`,
but kept kernel-computable by mapping over the character list). -/
def jsToLower (s : String) : String := String.mk (s.data.map Char.toLower)

/-- JS `a || b` for an optional string: `undefined` and the empty string are
falsy. -/
def jsOr (o : Option String) (d : String) : String :=
  match o with
  | some s => if s = "" then d else s
  | none => d

/-! ### Ticket domain types (`src/app/types/ticket.ts`) -/

/-- `TicketStatus` values. -/
inductive TicketStatus where
  | open_ | in_progress | resolved | closed
deriving DecidableEq, Repr

/-- `TicketPriority` values. -/
inductive TicketPriority where
  | low | medium | high | urgent
deriving DecidableEq, Repr

/-- `TicketCategory` values, in declaration order. -/
inductive TicketCategory where
  | technical | billing | account | feature_request | bug_report | general | other
deriving DecidableEq, Repr

/-- The string value of each `TicketCategory` member (the object values). -/
def categoryValue : TicketCategory → String
  | .technical => "technical"
  | .billing => "billing"
  | .account => "account"
  | .feature_request => "feature_request"
  | .bug_report => "bug_report"
  | .general => "general"
  | .other => "other"

/-- `Object.values(TicketCategory)` in declaration order. -/
def ticketCategoryValues : List TicketCategory :=
  [.technical, .billing, .account, .feature_request, .bug_report, .general, .other]

/-- `getCategoryDisplayName` from `ticket.ts`. -/
def getCategoryDisplayName : TicketCategory → String
  | .technical => "Technical Issue"
  | .billing => "Billing & Payments"
  | .account => "Account Management"
  | .feature_request => "Feature Request"
  | .bug_report => "Bug Report"
  | .general => "General Inquiry"
  | .other => "Other"

/-- `getCategoryDisplayName(x as TicketCategoryType)` when `x` may be
`undefined`: the switch falls through to `default` and yields "Unknown". -/
def displayNameOfOpt : Option TicketCategory → String
  | some c => getCategoryDisplayName c
  | none => "Unknown"

/-! ### Chat domain types (`src/app/types/chat.ts`) -/

/-- `MessageRole` values. -/
inductive MessageRole where
  | user | assistant | system
deriving DecidableEq, Repr

/-- A chat `Message`.  The uuid `id` and `Date` timestamp are
nondeterministic and unused by every verified property, so only role and
content are kept. -/
structure Message where
  role : MessageRole
  content : String
deriving DecidableEq, Repr

/-- `ConversationStep` values. -/
inductive ConversationStep where
  | greeting | collect_name | collect_issue | clarify_details
  | suggest_category | confirm_category | final_confirmation
  | ticket_created | error
deriving DecidableEq, Repr

/-- The `collectedData` record of a `ConversationState`. -/
structure CollectedData where
  userName : Option String
  userEmail : Option String
  issueDescription : Option String
  issueTitle : Option String
  suggestedCategory : Option TicketCategory
  confirmedCategory : Option TicketCategory
  additionalDetails : List String
deriving DecidableEq, Repr

/-- `ConversationState`.  The uuid `id`, `startedAt`/`completedAt`
timestamps and `createdTicketId` are nondeterministic or unused and are
omitted. -/
structure ConversationState where
  currentStep : ConversationStep
  collectedData : CollectedData
  messages : List Message
  isComplete : Bool
deriving DecidableEq, Repr

/-- `AIResponseType` values. -/
inductive AIResponseType where
  | question | clarification | category_suggestion | confirmation
  | success | error | typing
deriving DecidableEq, Repr

/-- The structured `AIResponse` descriptor returned next to the updated
conversation. -/
structure AIResponse where
  type : AIResponseType
  content : String
  nextStep : ConversationStep
  suggestions : Option (List String)
  categoryOptions : Option (List String)
  requiresInput : Bool
deriving DecidableEq, Repr

/-- `isConversationComplete` from `chat.ts`. -/
def isConversationComplete (step : ConversationStep) : Bool :=
  step == ConversationStep.ticket_created

/-- The ordered 8-step sequence used for progress computation. -/
def stepOrder : List ConversationStep :=
  [.greeting, .collect_name, .collect_issue, .clarify_details,
   .suggest_category, .confirm_category, .final_confirmation, .ticket_created]

/-- `getProgressPercentage`: `Math.round((indexOf(step) / (len - 1)) * 100)`,
with ERROR and not-found mapped to 0.  `Math.round` on a nonnegative
rational is `round`. -/
def getProgressPercentage (step : ConversationStep) : ℤ :=
  if step == ConversationStep.error then 0
  else
    match stepOrder.findIdx? (fun s => s == step) with
    | some currentIndex =>
        round ((currentIndex : ℚ) / ((stepOrder.length - 1 : ℕ) : ℚ) * 100)
    | none => 0

/-! ### AI prompts (`AI_PROMPTS` in `chat.ts`) -/

namespace AI_PROMPTS

def GREETING : String :=
  "Hi there! 👋 I\x27m here to help you create a support ticket. To get started, could you please tell me your name?"

def COLLECT_ISSUE (name : String) : String :=
  "Nice to meet you, " ++ name ++ "! Now, could you please describe the issue you\x27re experiencing? Be as detailed as possible - this will help our support team assist you better."

def CLARIFY_DETAILS : String :=
  "Thank you for that information. Could you provide any additional details that might help us understand the issue better? For example, when did this start happening, or what steps led to this issue?"

def SUGGEST_CATEGORY (suggestedCategory : String) : String :=
  "Based on your description, this seems like a **" ++ suggestedCategory ++ "** issue. Does this sound right to you? You can confirm this category or let me know if you think it should be categorized differently."

def FINAL_CONFIRMATION (userName issueTitle category : String) : String :=
  "Perfect! Let me confirm the details for your support ticket:\n\n**Name:** " ++ userName ++ "\n**Issue:** " ++ issueTitle ++ "\n**Category:** " ++ category ++ "\n\nDoes everything look correct? If yes, I\x27ll create your support ticket right away!"

def TICKET_CREATED (ticketId : String) : String :=
  "✅ Great! Your support ticket has been created successfully.\n\n**Ticket ID:** " ++ ticketId ++ "\n\nOur support team will review your ticket and get back to you soon. You can reference this ticket ID in any future communications.\n\nIs there anything else I can help you with today?"

def ERROR : String :=
  "I apologize, but something went wrong. Let me try to help you in a different way. Could you please tell me what you were trying to do?"

def CATEGORY_OPTIONS : List String :=
  ["Technical Issue", "Billing & Payments", "Account Management",
   "Feature Request", "Bug Report", "General Inquiry", "Other"]

def QUICK_REPLIES_YES : List String := ["Yes", "Correct", "That\x27s right"]

def QUICK_REPLIES_NO : List String := ["No", "Not quite", "Different category"]

end AI_PROMPTS

/-! ### Conversation engine (`src/app/lib/api.ts`) -/

/-- `initializeConversation`: fresh state at GREETING with the single
assistant greeting message. -/
def initializeConversation : ConversationState :=
  { currentStep := .greeting
    collectedData :=
      { userName := none, userEmail := none, issueDescription := none
        issueTitle := none, suggestedCategory := none, confirmedCategory := none
        additionalDetails := [] }
    messages := [⟨.assistant, AI_PROMPTS.GREETING⟩]
    isComplete := false }

def technicalKeywords : List String :=
  ["login", "password", "error", "bug", "crash", "broken", "not working",
   "server", "loading", "slow", "performance", "database", "api",
   "website", "app", "system", "connection", "timeout", "code"]

def billingKeywords : List String :=
  ["payment", "billing", "charge", "invoice", "credit card", "subscription",
   "refund", "money", "cost", "price", "fee", "upgrade", "downgrade"]

def accountKeywords : List String :=
  ["account", "profile", "settings", "email", "username", "access",
   "permission", "delete", "update", "change", "modify"]

def featureKeywords : List String :=
  ["feature", "request", "suggest", "improvement", "enhancement",
   "add", "new", "wish", "would like", "could you"]

def bugKeywords : List String :=
  ["bug", "issue", "problem", "error", "glitch", "malfunction",
   "defect", "wrong", "incorrect", "unexpected"]

/-- The `categoryScores` entries: keyword-match count per category over the
(already lower-cased) description; GENERAL and OTHER score 0. -/
def categoryScore (description : String) : TicketCategory → Nat
  | .technical => (technicalKeywords.filter (fun k => strContains description k)).length
  | .billing => (billingKeywords.filter (fun k => strContains description k)).length
  | .account => (accountKeywords.filter (fun k => strContains description k)).length
  | .feature_request => (featureKeywords.filter (fun k => strContains description k)).length
  | .bug_report => (bugKeywords.filter (fun k => strContains description k)).length
  | .general => 0
  | .other => 0

/-- `detectCategory`: lower-case the text, score each category, and take
`Object.entries(categoryScores).reduce((a, b) => scores[a] > scores[b] ? a : b)`;
return GENERAL unless the winner has a positive score. -/
def detectCategory (issueDescription : String) : TicketCategory :=
  let description := jsToLower issueDescription
  let sc := categoryScore description
  let top :=
    [TicketCategory.billing, .account, .feature_request, .bug_report,
     .general, .other].foldl
      (fun a b => if sc a > sc b then a else b) TicketCategory.technical
  if sc top > 0 then top else TicketCategory.general

/-- `generateIssueTitle`: trim and collapse whitespace; keep the cleaned
text if at most 60 chars, else the first `'.'`-segment if at most 60 chars,
else the first 50 chars, trimmed, plus `"..."`. -/
def generateIssueTitle (description : String) : String :=
  let cleaned := cleanChars description.data
  if cleaned.length ≤ 60 then String.mk cleaned
  else
    let firstSentence := cleaned.takeWhile (fun c => c ≠ '.')
    if firstSentence.length ≤ 60 then String.mk firstSentence
    else String.mk (trimChars (cleaned.take 50) ++ ['.', '.', '.'])

/-- `validateInput`: per-step length predicate over the trimmed input. -/
def validateInput (input : String) (step : ConversationStep) : Bool :=
  let trimmedInput := jsTrim input
  match step with
  | .collect_name => 2 ≤ trimmedInput.length && trimmedInput.length ≤ 50
  | .collect_issue => 10 ≤ trimmedInput.length
  | .clarify_details => 5 ≤ trimmedInput.length
  | _ => true

/-- `isPositiveResponse` in the SUGGEST/CONFIRM_CATEGORY branch:
`/^(yes|y|correct|right|ok|okay|sure|yep|yeah)$/i` or one of the YES quick
replies, compareed case-insensitively. -/
def isPositiveInput (trimmedInput : String) : Bool :=
  let lower := jsToLower trimmedInput
  ["yes", "y", "correct", "right", "ok", "okay", "sure", "yep", "yeah"].contains lower
    || AI_PROMPTS.QUICK_REPLIES_YES.any (fun reply => jsToLower reply == lower)

/-- `isConfirmed` in the FINAL_CONFIRMATION branch:
`/^(yes|y|correct|create|submit|ok|okay|sure|yep|yeah)$/i` or a YES quick
reply. -/
def isConfirmedInput (trimmedInput : String) : Bool :=
  let lower := jsToLower trimmedInput
  ["yes", "y", "correct", "create", "submit", "ok", "okay", "sure", "yep", "yeah"].contains lower
    || AI_PROMPTS.QUICK_REPLIES_YES.any (fun reply => jsToLower reply == lower)

/-- The `Object.values(TicketCategory).find(...)` search for a category
mentioned in a rejection message: the lower-cased input must contain the
category value or its lower-cased display name. -/
def mentionedCategoryIn (trimmedInput : String) : Option TicketCategory :=
  ticketCategoryValues.find? (fun category =>
    strContains (jsToLower trimmedInput) (categoryValue category)
      || strContains (jsToLower trimmedInput) (jsToLower (getCategoryDisplayName category)))

/-- `processUserInput`: appends the echoed USER message, computes the next
step, collected data, assistant content, response type and suggestion lists
per current step, appends the ASSISTANT message and reassembles the state.
The uuid ticket id interpolated into the TICKET_CREATED prompt is
nondeterministic and modelled by a fixed placeholder. -/
def processUserInput (userInput : String) (currentConversation : ConversationState) :
    ConversationState × AIResponse :=
  let trimmedInput := jsTrim userInput
  let currentStep := currentConversation.currentStep
  let userMessage : Message := ⟨.user, trimmedInput⟩
  let updatedMessages := currentConversation.messages ++ [userMessage]
  let cd := currentConversation.collectedData
  -- (nextStep, collectedData, content, responseType, suggestions, categoryOptions)
  let r : ConversationStep × CollectedData × String × AIResponseType × List String × List String :=
    match currentStep with
    | .greeting | .collect_name =>
      if validateInput trimmedInput .collect_name then
        (.collect_issue, { cd with userName := some trimmedInput },
         AI_PROMPTS.COLLECT_ISSUE trimmedInput, .question, [], [])
      else
        (currentStep, cd, "Please provide a valid name (2-50 characters).",
         .question, [], [])
    | .collect_issue =>
      if validateInput trimmedInput .collect_issue then
        (.clarify_details,
         { cd with issueDescription := some trimmedInput,
                   issueTitle := some (generateIssueTitle trimmedInput) },
         AI_PROMPTS.CLARIFY_DETAILS, .question, [], [])
      else
        (currentStep, cd,
         "Please provide more details about your issue (at least 10 characters).",
         .question, [], [])
    | .clarify_details =>
      if validateInput trimmedInput .clarify_details then
        -- `${issueDescription} ${input}`: an absent description prints as
        -- the literal "undefined" in the template string
        let fullDescription := (cd.issueDescription.getD "undefined") ++ " " ++ trimmedInput
        let detectedCategory := detectCategory fullDescription
        (.suggest_category,
         { cd with additionalDetails := cd.additionalDetails ++ [trimmedInput],
                   suggestedCategory := some detectedCategory },
         AI_PROMPTS.SUGGEST_CATEGORY (getCategoryDisplayName detectedCategory),
         .category_suggestion,
         AI_PROMPTS.QUICK_REPLIES_YES ++ AI_PROMPTS.QUICK_REPLIES_NO, [])
      else
        (currentStep, cd,
         "Please provide some additional details to help us better understand your issue.",
         .question, [], [])
    | .suggest_category | .confirm_category =>
      if isPositiveInput trimmedInput then
        (.final_confirmation, { cd with confirmedCategory := cd.suggestedCategory },
         AI_PROMPTS.FINAL_CONFIRMATION (jsOr cd.userName "User")
           (jsOr cd.issueTitle "Support Request") (displayNameOfOpt cd.suggestedCategory),
         .confirmation, AI_PROMPTS.QUICK_REPLIES_YES ++ ["Make changes"], [])
      else
        match mentionedCategoryIn trimmedInput with
        | some mentionedCategory =>
          (.final_confirmation,
           { cd with suggestedCategory := some mentionedCategory,
                     confirmedCategory := some mentionedCategory },
           AI_PROMPTS.FINAL_CONFIRMATION (jsOr cd.userName "User")
             (jsOr cd.issueTitle "Support Request")
             (getCategoryDisplayName mentionedCategory),
           .confirmation, [], AI_PROMPTS.CATEGORY_OPTIONS)
        | none =>
          (.confirm_category, cd,
           "No problem! Which category would better describe your issue?",
           .category_suggestion, [], AI_PROMPTS.CATEGORY_OPTIONS)
    | .final_confirmation =>
      if isConfirmedInput trimmedInput then
        (.ticket_created,
         { cd with issueTitle := some (jsOr cd.issueTitle "Support Request"),
                   confirmedCategory := some (cd.confirmedCategory.getD .general) },
         AI_PROMPTS.TICKET_CREATED "ticket-id", .success, [], [])
      else
        (.collect_name, cd,
         "What would you like to change? You can modify your name, issue description, or category.",
         .question, ["Change name", "Change description", "Change category", "Start over"], [])
    | _ =>
      (currentStep, cd, AI_PROMPTS.ERROR, .error, [], [])
  let nextStep := r.1
  let updatedCollectedData := r.2.1
  let aiResponseContent := r.2.2.1
  let aiResponseType := r.2.2.2.1
  let suggestions := r.2.2.2.2.1
  let categoryOptions := r.2.2.2.2.2
  let aiMessage : Message := ⟨.assistant, aiResponseContent⟩
  let aiResponse : AIResponse :=
    { type := aiResponseType
      content := aiResponseContent
      nextStep := nextStep
      suggestions := if suggestions.length > 0 then some suggestions else none
      categoryOptions := if categoryOptions.length > 0 then some categoryOptions else none
      requiresInput := nextStep != .ticket_created }
  let updatedConversation : ConversationState :=
    { currentConversation with
        currentStep := nextStep
        collectedData := updatedCollectedData
        messages := updatedMessages ++ [aiMessage]
        isComplete := isConversationComplete nextStep }
  (updatedConversation, aiResponse)

/-! ### API client (`ApiClient` in `src/app/lib/api.ts`)

The `request` loop is modelled over an environment `fetch : Nat → FetchOutcome α`
giving the outcome of each attempt (0-based, as in the `for` loop); `sleep`
delays are recorded in a trace instead of being awaited. -/

/-- `ApiErrorType` values (`src/app/types/api.ts`). -/
inductive ApiErrorT where
  | validation_error | not_found | unauthorized | forbidden
  | internal_error | network_error | timeout
deriving DecidableEq, Repr

/-- `ApiClientError`: classified error with optional HTTP status. -/
structure ApiClientError where
  type : ApiErrorT
  message : String
  status : Option Nat
deriving DecidableEq, Repr

/-- `ApiClient.getErrorType`: map an HTTP status to an error type. -/
def getErrorType (status : Nat) : ApiErrorT :=
  if status = 400 then .validation_error
  else if status = 401 then .unauthorized
  else if status = 403 then .forbidden
  else if status = 404 then .not_found
  else if status = 408 then .timeout
  else if 500 ≤ status then .internal_error
  else .internal_error

/-- The `ApiClientError` thrown for a non-ok response. -/
def httpError (status : Nat) (message : String) : ApiClientError :=
  ⟨getErrorType status, message, some status⟩

/-- The wrapped NETWORK_ERROR thrown when the last failure was not an
`ApiClientError`. -/
def networkError (message : String) : ApiClientError :=
  ⟨.network_error, message, none⟩

/-- Outcome of one `fetch` attempt: a parsed success value, a non-2xx
response with its status, or a thrown network failure. -/
inductive FetchOutcome (α : Type) where
  | ok (v : α)
  | httpErr (status : Nat) (message : String)
  | netErr (message : String)

/-- Observable trace of one `request` call: the final result, the number of
fetch attempts performed, and the list of `sleep` delays (ms) awaited
between attempts. -/
structure RequestTrace (α : Type) where
  result : Except ApiClientError α
  attempts : Nat
  delays : List Nat
deriving Repr

/-- The body of the retry `for` loop from `ApiClient.request`, from attempt
number `attempt` with `remaining = retries - attempt` further attempts
allowed.  A 4xx (any status < 500) `ApiClientError` is rethrown at once; on
the last attempt the loop breaks and the last error is surfaced (an
`ApiClientError` directly, anything else wrapped as a NETWORK_ERROR);
otherwise the loop sleeps `1000 * (attempt + 1)` ms and retries. -/
def requestGo {α : Type} (fetch : Nat → FetchOutcome α) : Nat → Nat → RequestTrace α
  | attempt, remaining =>
    match fetch attempt, remaining with
    | .ok v, _ => ⟨.ok v, 1, []⟩
    | .httpErr status message, remaining =>
      if status < 500 then ⟨.error (httpError status message), 1, []⟩
      else
        match remaining with
        | 0 => ⟨.error (httpError status message), 1, []⟩
        | remaining' + 1 =>
          let t := requestGo fetch (attempt + 1) remaining'
          ⟨t.result, t.attempts + 1, 1000 * (attempt + 1) :: t.delays⟩
    | .netErr message, 0 => ⟨.error (networkError message), 1, []⟩
    | .netErr _, remaining' + 1 =>
      let t := requestGo fetch (attempt + 1) remaining'
      ⟨t.result, t.attempts + 1, 1000 * (attempt + 1) :: t.delays⟩

/-- `ApiClient.request` with a given `retries` configuration: run the loop
`for (attempt = 0; attempt <= retries; attempt++)`. -/
def request {α : Type} (fetch : Nat → FetchOutcome α) (retries : Nat) : RequestTrace α :=
  requestGo fetch 0 retries

/-- `API_CONFIG.retries`: the default retry count. -/
def apiConfigRetries : Nat := 1

/-- An attempt outcome the loop will retry: a network failure or a 5xx
response. -/
def retryable {α : Type} : FetchOutcome α → Prop
  | .ok _ => False
  | .httpErr status _ => 500 ≤ status
  | .netErr _ => True

/-- The classified error a failed outcome surfaces as. -/
def failureOf {α : Type} : FetchOutcome α → Option ApiClientError
  | .ok _ => none
  | .httpErr status message => some (httpError status message)
  | .netErr message => some (networkError message)

/-! ### Ticket collection view-model (`useTickets` hook) -/

/-- A `Ticket` restricted to the fields the view-model reads: identifier,
reporter, title/description, classification and assignee.  Timestamps and
tags are never inspected by the verified operations and are omitted. -/
structure Ticket where
  id : String
  userName : String
  title : String
  description : String
  category : TicketCategory
  status : TicketStatus
  priority : TicketPriority
  assignedTo : Option String
deriving DecidableEq, Repr

/-- `TicketFilter` (date range omitted: unused by `filteredTickets`). -/
structure TicketFilter where
  status : Option (List TicketStatus)
  category : Option (List TicketCategory)
  priority : Option (List TicketPriority)
  assignedTo : Option String
  searchQuery : Option String
deriving DecidableEq, Repr

/-- Pagination metadata. -/
structure Pagination where
  page : Nat
  limit : Nat
  total : Nat
  totalPages : Nat
  hasNext : Bool
  hasPrev : Bool
deriving DecidableEq, Repr

/-- The paginated payload of a successful `getTickets` response
(`data.data` and `data.data.pagination`). -/
structure TicketsPage where
  data : List Ticket
  pagination : Pagination
deriving Repr

/-- Result of `handleApiResponse`: either the parsed payload or a single
human-readable error message (an `ApiClientError` message or a generic
fallback). -/
inductive ApiOutcome (α : Type) where
  | success (payload : α)
  | failure (message : String)

/-- The `useTickets` state touched by `loadTickets`/`updateTicket`. -/
structure TicketsState where
  tickets : List Ticket
  error : Option String
  isLoading : Bool
  pagination : Pagination
deriving Repr

/-- `loadTickets`: set loading, clear the error, then either record the
failure message or replace/append the fetched page and its pagination. -/
def loadTickets (reset : Bool) (outcome : ApiOutcome TicketsPage)
    (s : TicketsState) : TicketsState :=
  let s := { s with isLoading := true, error := none }
  match outcome with
  | .failure message => { s with error := some message, isLoading := false }
  | .success page =>
    let newTickets := if reset then page.data else s.tickets ++ page.data
    { s with tickets := newTickets, pagination := page.pagination, isLoading := false }

/-- `updateTicket`: clear the error, then either record the failure message
(returning `false`) or replace the matching ticket by id (returning
`true`). -/
def updateTicket (id : String) (outcome : ApiOutcome Ticket)
    (s : TicketsState) : TicketsState × Bool :=
  let s := { s with error := none }
  match outcome with
  | .failure message => ({ s with error := some message }, false)
  | .success t =>
    ({ s with tickets := s.tickets.map (fun ticket => if ticket.id = id then t else ticket) }, true)

/-- `filteredTickets`: the locally narrowed view — sequential filters for
status/category/priority membership, assignee equality (JS truthiness: an
absent or empty `assignedTo` filter imposes nothing), and, when the trimmed
search query is non-empty, a lower-cased substring match of the *untrimmed*
query against title, description, userName and id. -/
def filteredTickets (tickets : List Ticket) (filters : TicketFilter)
    (searchQuery : String) : List Ticket :=
  let filtered := tickets
  let filtered :=
    match filters.status with
    | some l => if l.length > 0 then filtered.filter (fun t => l.contains t.status) else filtered
    | none => filtered
  let filtered :=
    match filters.category with
    | some l => if l.length > 0 then filtered.filter (fun t => l.contains t.category) else filtered
    | none => filtered
  let filtered :=
    match filters.priority with
    | some l => if l.length > 0 then filtered.filter (fun t => l.contains t.priority) else filtered
    | none => filtered
  let filtered :=
    match filters.assignedTo with
    | some a => if !a.isEmpty then filtered.filter (fun t => t.assignedTo == some a) else filtered
    | none => filtered
  let filtered :=
    if !(jsTrim searchQuery).isEmpty then
      let query := jsToLower searchQuery
      filtered.filter (fun t =>
        strContains (jsToLower t.title) query
          || strContains (jsToLower t.description) query
          || strContains (jsToLower t.userName) query
          || strContains (jsToLower t.id) query)
    else filtered
  filtered

/-! ### Auxiliary definitions for the verification -/

/-- Canonical-form predicate: the head character is not whitespace. -/
def noLeadWs : List Char → Bool
  | [] => true
  | c :: _ => !isWs c

/-- Canonical-form predicate: the last character is not whitespace. -/
def noTrailWs : List Char → Bool
  | [] => true
  | [c] => !isWs c
  | _ :: d :: t => noTrailWs (d :: t)

/-- Canonical-form predicate: no two adjacent whitespace characters. -/
def noWsRun : List Char → Bool
  | [] => true
  | [_] => true
  | c :: d :: t => (!(isWs c && isWs d)) && noWsRun (d :: t)

/-- Canonical-form predicate: every whitespace character is a plain space. -/
def wsAllSpace (l : List Char) : Bool := l.all (fun c => !isWs c || c == ' ')

/-- Declaration index of a `TicketCategory` (iteration order of the
`categoryScores` object). -/
def declIdx : TicketCategory → Nat
  | .technical => 0
  | .billing => 1
  | .account => 2
  | .feature_request => 3
  | .bug_report => 4
  | .general => 5
  | .other => 6

/-- Position of a step in the 8-step order (ERROR, outside the sequence,
is placed after TICKET_CREATED). -/
def ordIdx : ConversationStep → Nat
  | .greeting => 0
  | .collect_name => 1
  | .collect_issue => 2
  | .clarify_details => 3
  | .suggest_category => 4
  | .confirm_category => 5
  | .final_confirmation => 6
  | .ticket_created => 7
  | .error => 8

/-- The steps whose input fails the step's length predicate, together with
the predicate that fails: GREETING and COLLECT_NAME validate as a name,
COLLECT_ISSUE as an issue, CLARIFY_DETAILS as a clarification; other steps
never reprompt. -/
def stepInvalid (step : ConversationStep) (trimmedInput : String) : Bool :=
  match step with
  | .greeting | .collect_name => !validateInput trimmedInput .collect_name
  | .collect_issue => !validateInput trimmedInput .collect_issue
  | .clarify_details => !validateInput trimmedInput .clarify_details
  | _ => false

/-- The fixed reprompt message issued on invalid input at each collecting
step. -/
def repromptContent : ConversationStep → String
  | .greeting | .collect_name => "Please provide a valid name (2-50 characters)."
  | .collect_issue => "Please provide more details about your issue (at least 10 characters)."
  | .clarify_details => "Please provide some additional details to help us better understand your issue."
  | _ => ""

/-- An empty `collectedData` record. -/
def emptyCollectedData : CollectedData :=
  { userName := none, userEmail := none, issueDescription := none
    issueTitle := none, suggestedCategory := none, confirmedCategory := none
    additionalDetails := [] }

/-- A conversation stuck at TICKET_CREATED (for witnesses). -/
def sampleTerminalState : ConversationState :=
  ⟨.ticket_created, emptyCollectedData, [], true⟩

/-- A conversation waiting for a name (for witnesses). -/
def sampleNameState : ConversationState :=
  ⟨.collect_name, emptyCollectedData, [], false⟩

/-- A conversation at FINAL_CONFIRMATION (for witnesses). -/
def sampleFinalState : ConversationState :=
  ⟨.final_confirmation, emptyCollectedData, [], false⟩

/-- The per-ticket predicate actually applied by `filteredTickets`: OR
within each present non-empty array, AND across fields, assignee equality
under JS truthiness, and the lower-cased *untrimmed* search query matched
when its trimmed form is non-empty. -/
def keepsTicket (filters : TicketFilter) (searchQuery : String) (t : Ticket) : Bool :=
  (match filters.status with
   | some l => if l.length > 0 then l.contains t.status else true
   | none => true)
  && (match filters.category with
      | some l => if l.length > 0 then l.contains t.category else true
      | none => true)
  && (match filters.priority with
      | some l => if l.length > 0 then l.contains t.priority else true
      | none => true)
  && (match filters.assignedTo with
      | some a => if !a.isEmpty then t.assignedTo == some a else true
      | none => true)
  && (if !(jsTrim searchQuery).isEmpty then
        let query := jsToLower searchQuery
        strContains (jsToLower t.title) query
          || strContains (jsToLower t.description) query
          || strContains (jsToLower t.userName) query
          || strContains (jsToLower t.id) query
      else true)

/-- Modelled from the claim's wording (for refutation): identical to
`keepsTicket` except that the *trimmed* search query is matched. -/
def keepsTicketClaim (filters : TicketFilter) (searchQuery : String) (t : Ticket) : Bool :=
  (match filters.status with
   | some l => if l.length > 0 then l.contains t.status else true
   | none => true)
  && (match filters.category with
      | some l => if l.length > 0 then l.contains t.category else true
      | none => true)
  && (match filters.priority with
      | some l => if l.length > 0 then l.contains t.priority else true
      | none => true)
  && (match filters.assignedTo with
      | some a => if !a.isEmpty then t.assignedTo == some a else true
      | none => true)
  && (if !(jsTrim searchQuery).isEmpty then
        let query := jsToLower (jsTrim searchQuery)
        strContains (jsToLower t.title) query
          || strContains (jsToLower t.description) query
          || strContains (jsToLower t.userName) query
          || strContains (jsToLower t.id) query
      else true)

/-- A ticket whose title contains "open" only as part of "Reopen" (for the
search-query counterexample). -/
def sampleTicketReopen : Ticket :=
  ⟨"t1", "Uma", "Reopen", "dashboard", .general, .open_, .medium, none⟩

/-- An open ticket (for witnesses). -/
def sampleTicketOpen : Ticket :=
  ⟨"t2", "Vic", "Broken page", "the page is broken", .technical, .open_, .high, none⟩

/-- The empty filter record. -/
def emptyTicketFilter : TicketFilter := ⟨none, none, none, none, none⟩

/-- The filter record selecting only open tickets. -/
def openOnlyFilter : TicketFilter := ⟨some [.open_], none, none, none, none⟩

/-- A description whose first sentence ends in " ." (for the title
idempotence counterexample). -/
def badTitleInput : String :=
  "hello world . xxxxxxxxxxxxxxxxxxxxxxxxxxxxxxxxxxxxxxxxxxxxxxxxxxxxxxxxxxxx"

/-! ### Theorems -/

/-- Progress value at GREETING. -/
@[simp] lemma gpp_greeting : getProgressPercentage .greeting = 0 := by
  simp [getProgressPercentage, stepOrder, List.findIdx?]

/-- Progress value at COLLECT_NAME. -/
@[simp] lemma gpp_collect_name : getProgressPercentage .collect_name = 14 := by
  simp [getProgressPercentage, stepOrder, List.findIdx?]; norm_num [round_eq]

/-- Progress value at COLLECT_ISSUE. -/
@[simp] lemma gpp_collect_issue : getProgressPercentage .collect_issue = 29 := by
  simp [getProgressPercentage, stepOrder, List.findIdx?]; norm_num [round_eq]

/-- Progress value at CLARIFY_DETAILS. -/
@[simp] lemma gpp_clarify_details : getProgressPercentage .clarify_details = 43 := by
  simp [getProgressPercentage, stepOrder, List.findIdx?]; norm_num [round_eq]

/-- Progress value at SUGGEST_CATEGORY. -/
@[simp] lemma gpp_suggest_category : getProgressPercentage .suggest_category = 57 := by
  simp [getProgressPercentage, stepOrder, List.findIdx?]; norm_num [round_eq]

/-- Progress value at CONFIRM_CATEGORY. -/
@[simp] lemma gpp_confirm_category : getProgressPercentage .confirm_category = 71 := by
  simp [getProgressPercentage, stepOrder, List.findIdx?]; norm_num [round_eq]

/-- Progress value at FINAL_CONFIRMATION. -/
@[simp] lemma gpp_final_confirmation : getProgressPercentage .final_confirmation = 86 := by
  simp [getProgressPercentage, stepOrder, List.findIdx?]; norm_num [round_eq]

/-- Progress value at TICKET_CREATED. -/
@[simp] lemma gpp_ticket_created : getProgressPercentage .ticket_created = 100 := by
  simp [getProgressPercentage, stepOrder, List.findIdx?]

/-- Progress value at ERROR. -/
@[simp] lemma gpp_error : getProgressPercentage .error = 0 := by
  simp [getProgressPercentage]

/-- The `isComplete` field of the state returned by `processUserInput` is
recomputed from the next step. -/
theorem processUserInput_isComplete (input : String) (c : ConversationState) :
    (processUserInput input c).1.isComplete
      = isConversationComplete ((processUserInput input c).1.currentStep) := rfl

/-- Claim C2: `initializeConversation` starts at GREETING with
`isComplete = false`, and every state returned by `processUserInput`
satisfies `isComplete = true` iff its current step is TICKET_CREATED. -/
theorem claim2_complete_iff_ticket_created :
    initializeConversation.currentStep = ConversationStep.greeting
    ∧ initializeConversation.isComplete = false
    ∧ ∀ (c : ConversationState) (input : String),
        ((processUserInput input c).1.isComplete = true
          ↔ (processUserInput input c).1.currentStep = ConversationStep.ticket_created) := by
  refine ⟨rfl, rfl, fun c input => ?_⟩
  rw [processUserInput_isComplete, isConversationComplete]
  exact beq_iff_eq

/-- Claim C10: on a state at TICKET_CREATED or ERROR, the default branch
runs: step and collected data are unchanged, the echoed USER message and a
single ASSISTANT message carrying the fixed error prompt are appended, the
response descriptor has type `error`, and a TICKET_CREATED state stays
complete. -/
theorem claim10_terminal_default_branch :
    ∀ (c : ConversationState) (input : String),
      c.currentStep = ConversationStep.ticket_created
        ∨ c.currentStep = ConversationStep.error →
      (processUserInput input c).1.currentStep = c.currentStep
      ∧ (processUserInput input c).1.collectedData = c.collectedData
      ∧ (processUserInput input c).1.messages
          = c.messages ++ [⟨.user, jsTrim input⟩, ⟨.assistant, AI_PROMPTS.ERROR⟩]
      ∧ (processUserInput input c).2.type = AIResponseType.error
      ∧ (processUserInput input c).2.content = AI_PROMPTS.ERROR
      ∧ (c.currentStep = ConversationStep.ticket_created →
          (processUserInput input c).1.isComplete = true) := by
  intro c input h
  obtain ⟨step, cd, msgs, comp⟩ := c
  rcases h with h | h <;> simp only at h <;> subst h <;>
    simp [processUserInput, isConversationComplete]

/-- Witness for C10 at a concrete TICKET_CREATED state and input. -/
theorem claim10_witness :
    (processUserInput "hi" sampleTerminalState).1.currentStep = sampleTerminalState.currentStep
    ∧ (processUserInput "hi" sampleTerminalState).1.collectedData = sampleTerminalState.collectedData
    ∧ (processUserInput "hi" sampleTerminalState).1.messages
        = sampleTerminalState.messages ++ [⟨.user, jsTrim "hi"⟩, ⟨.assistant, AI_PROMPTS.ERROR⟩]
    ∧ (processUserInput "hi" sampleTerminalState).2.type = AIResponseType.error
    ∧ (processUserInput "hi" sampleTerminalState).2.content = AI_PROMPTS.ERROR
    ∧ (sampleTerminalState.currentStep = ConversationStep.ticket_created →
        (processUserInput "hi" sampleTerminalState).1.isComplete = true) :=
  claim10_terminal_default_branch sampleTerminalState "hi" (Or.inl rfl)

/-- Claim C1: at GREETING, COLLECT_NAME, COLLECT_ISSUE or CLARIFY_DETAILS,
an input failing the step's length predicate leaves the step and collected
data unchanged and appends exactly the echoed USER message and one fixed
reprompt ASSISTANT message (the function is total: it never throws). -/
theorem claim1_invalid_input_reprompts :
    ∀ (c : ConversationState) (input : String),
      stepInvalid c.currentStep (jsTrim input) = true →
      (processUserInput input c).1.currentStep = c.currentStep
      ∧ (processUserInput input c).1.collectedData = c.collectedData
      ∧ (processUserInput input c).1.messages
          = c.messages
              ++ [⟨.user, jsTrim input⟩, ⟨.assistant, repromptContent c.currentStep⟩]
      ∧ (processUserInput input c).2.nextStep = c.currentStep := by
  intro c input h
  obtain ⟨step, cd, msgs, comp⟩ := c
  cases step <;> simp only [stepInvalid, Bool.not_eq_true'] at h <;>
    simp_all [processUserInput, repromptContent]

/-- Witness for C1: a one-character name at COLLECT_NAME is reprompted. -/
theorem claim1_witness :
    stepInvalid sampleNameState.currentStep (jsTrim "x") = true
    ∧ ((processUserInput "x" sampleNameState).1.currentStep = sampleNameState.currentStep
      ∧ (processUserInput "x" sampleNameState).1.collectedData = sampleNameState.collectedData
      ∧ (processUserInput "x" sampleNameState).1.messages
          = sampleNameState.messages
              ++ [⟨.user, jsTrim "x"⟩, ⟨.assistant, repromptContent sampleNameState.currentStep⟩]
      ∧ (processUserInput "x" sampleNameState).2.nextStep = sampleNameState.currentStep) :=
  ⟨by decide, claim1_invalid_input_reprompts sampleNameState "x" (by decide)⟩

/-- Claim C8: progress is the step's index in the 8-step order divided by
7, times 100, rounded (`Math.round`); GREETING maps to 0, TICKET_CREATED
to 100, and ERROR to 0. -/
theorem claim8_progress_values :
    getProgressPercentage .greeting = round ((0 : ℚ) / 7 * 100)
    ∧ getProgressPercentage .collect_name = round ((1 : ℚ) / 7 * 100)
    ∧ getProgressPercentage .collect_issue = round ((2 : ℚ) / 7 * 100)
    ∧ getProgressPercentage .clarify_details = round ((3 : ℚ) / 7 * 100)
    ∧ getProgressPercentage .suggest_category = round ((4 : ℚ) / 7 * 100)
    ∧ getProgressPercentage .confirm_category = round ((5 : ℚ) / 7 * 100)
    ∧ getProgressPercentage .final_confirmation = round ((6 : ℚ) / 7 * 100)
    ∧ getProgressPercentage .ticket_created = round ((7 : ℚ) / 7 * 100)
    ∧ getProgressPercentage .greeting = 0
    ∧ getProgressPercentage .collect_name = 14
    ∧ getProgressPercentage .collect_issue = 29
    ∧ getProgressPercentage .clarify_details = 43
    ∧ getProgressPercentage .suggest_category = 57
    ∧ getProgressPercentage .confirm_category = 71
    ∧ getProgressPercentage .final_confirmation = 86
    ∧ getProgressPercentage .ticket_created = 100
    ∧ getProgressPercentage .error = 0 := by
  refine ⟨?_, ?_, ?_, ?_, ?_, ?_, ?_, ?_, gpp_greeting, gpp_collect_name, gpp_collect_issue,
    gpp_clarify_details, gpp_suggest_category, gpp_confirm_category, gpp_final_confirmation,
    gpp_ticket_created, gpp_error⟩
  · rw [gpp_greeting]; norm_num [round_eq]
  · rw [gpp_collect_name]; norm_num [round_eq]
  · rw [gpp_collect_issue]; norm_num [round_eq]
  · rw [gpp_clarify_details]; norm_num [round_eq]
  · rw [gpp_suggest_category]; norm_num [round_eq]
  · rw [gpp_confirm_category]; norm_num [round_eq]
  · rw [gpp_final_confirmation]; norm_num [round_eq]
  · rw [gpp_ticket_created]; norm_num [round_eq]

/-- Claim C9: the step returned by `processUserInput` is never earlier in
the 8-step order than the current step, except for the single
FINAL_CONFIRMATION-rejection branch, which moves to COLLECT_NAME; outside
that branch the progress percentage is non-decreasing. -/
theorem claim9_no_regression :
    ∀ (c : ConversationState) (input : String),
      (c.currentStep = ConversationStep.final_confirmation
        ∧ isConfirmedInput (jsTrim input) = false
        ∧ (processUserInput input c).1.currentStep = ConversationStep.collect_name)
      ∨ (ordIdx c.currentStep ≤ ordIdx ((processUserInput input c).1.currentStep)
        ∧ getProgressPercentage c.currentStep
            ≤ getProgressPercentage ((processUserInput input c).1.currentStep)) := by
  intro c input
  obtain ⟨step, cd, msgs, comp⟩ := c
  cases step with
  | greeting =>
    by_cases hv : validateInput (jsTrim input) .collect_name = true <;>
      right <;> simp only [processUserInput, hv, if_true, if_false, Bool.false_eq_true] <;>
      exact ⟨by decide, by simp⟩
  | collect_name =>
    by_cases hv : validateInput (jsTrim input) .collect_name = true <;>
      right <;> simp only [processUserInput, hv, if_true, if_false, Bool.false_eq_true] <;>
      exact ⟨by decide, by simp⟩
  | collect_issue =>
    by_cases hv : validateInput (jsTrim input) .collect_issue = true <;>
      right <;> simp only [processUserInput, hv, if_true, if_false, Bool.false_eq_true] <;>
      exact ⟨by decide, by simp⟩
  | clarify_details =>
    by_cases hv : validateInput (jsTrim input) .clarify_details = true <;>
      right <;> simp only [processUserInput, hv, if_true, if_false, Bool.false_eq_true] <;>
      exact ⟨by decide, by simp⟩
  | suggest_category =>
    by_cases hp : isPositiveInput (jsTrim input) = true
    · right
      simp only [processUserInput, hp, if_true]
      exact ⟨by decide, by simp⟩
    · rcases hm : mentionedCategoryIn (jsTrim input) with _ | mc <;>
        right <;>
        simp only [processUserInput, hp, hm, if_false, Bool.false_eq_true] <;>
        exact ⟨by decide, by simp⟩
  | confirm_category =>
    by_cases hp : isPositiveInput (jsTrim input) = true
    · right
      simp only [processUserInput, hp, if_true]
      exact ⟨by decide, by simp⟩
    · rcases hm : mentionedCategoryIn (jsTrim input) with _ | mc <;>
        right <;>
        simp only [processUserInput, hp, hm, if_false, Bool.false_eq_true] <;>
        exact ⟨by decide, by simp⟩
  | final_confirmation =>
    by_cases hcf : isConfirmedInput (jsTrim input) = true
    · right
      simp only [processUserInput, hcf, if_true]
      exact ⟨by decide, by simp⟩
    · left
      refine ⟨rfl, by simpa using hcf, ?_⟩
      simp only [processUserInput, hcf, if_false, Bool.false_eq_true]
  | ticket_created =>
    right
    simp only [processUserInput]
    exact ⟨by decide, by simp⟩
  | error =>
    right
    simp only [processUserInput]
    exact ⟨by decide, by simp⟩

/-- When every attempt up to the last allowed one fails retryably, the loop
performs every attempt, sleeps the linear-backoff delays, and surfaces the
classified error of the final attempt. -/
lemma requestGo_all_retryable {α : Type} (fetch : Nat → FetchOutcome α) :
    ∀ (remaining attempt : Nat),
      (∀ i, attempt ≤ i → i ≤ attempt + remaining → retryable (fetch i)) →
      (requestGo fetch attempt remaining).attempts = remaining + 1
      ∧ (requestGo fetch attempt remaining).delays
          = (List.range remaining).map (fun k => 1000 * (attempt + k + 1))
      ∧ ∀ e, failureOf (fetch (attempt + remaining)) = some e →
          (requestGo fetch attempt remaining).result = Except.error e := by
  intro remaining
  induction remaining with
  | zero =>
    intro attempt h
    have ha := h attempt le_rfl (by omega)
    rcases hf : fetch attempt with ⟨v⟩ | ⟨status, message⟩ | ⟨message⟩ <;> rw [hf] at ha
    · exact absurd ha not_false
    · have h500 : ¬ status < 500 := by
        simp only [retryable] at ha; omega
      rw [requestGo.eq_def]
      refine ⟨?_, ?_, ?_⟩ <;> simp [hf, h500, failureOf]
    · rw [requestGo.eq_def]
      refine ⟨?_, ?_, ?_⟩ <;> simp [hf, failureOf]
  | succ r ih =>
    intro attempt h
    have ha := h attempt le_rfl (by omega)
    have hrec := ih (attempt + 1) (fun i h1 h2 => h i (by omega) (by omega))
    have harith : attempt + 1 + r = attempt + (r + 1) := by omega
    rcases hf : fetch attempt with ⟨v⟩ | ⟨status, message⟩ | ⟨message⟩ <;> rw [hf] at ha
    · exact absurd ha not_false
    · have h500 : ¬ status < 500 := by
        simp only [retryable] at ha; omega
      rw [requestGo.eq_def]
      refine ⟨?_, ?_, ?_⟩
      · simp [hf, h500, hrec.1]
      · simp only [hf, h500, if_false, hrec.2.1,
          List.range_succ_eq_map, List.map_cons, List.map_map]
        refine congrArg₂ _ (by omega) (List.map_congr_left fun k _ => ?_)
        simp only [Function.comp]; omega
      · intro e he
        have hres := hrec.2.2 e (by rw [harith]; exact he)
        simp [hf, h500, hres]
    · rw [requestGo.eq_def]
      refine ⟨?_, ?_, ?_⟩
      · simp [hf, hrec.1]
      · simp only [hf, hrec.2.1,
          List.range_succ_eq_map, List.map_cons, List.map_map]
        refine congrArg₂ _ (by omega) (List.map_congr_left fun k _ => ?_)
        simp only [Function.comp]; omega
      · intro e he
        have hres := hrec.2.2 e (by rw [harith]; exact he)
        simp [hf, hres]

/-- Claim C3: the default retry budget is one extra attempt; a response
with a 4xx status is never retried (its classified error is thrown on the
attempt that received it, so exactly one attempt happens); network failures
and 5xx responses are retried up to the configured count with linear
backoff `attempt * 1000` ms; and once retries are exhausted the final
failure's classified error is the thrown result. -/
theorem claim3_retry_policy :
    apiConfigRetries = 1
    ∧ (∀ (α : Type) (fetch : Nat → FetchOutcome α) (retries status : Nat) (message : String),
        400 ≤ status → status < 500 →
        fetch 0 = FetchOutcome.httpErr status message →
        request fetch retries = ⟨Except.error (httpError status message), 1, []⟩)
    ∧ (∀ (α : Type) (fetch : Nat → FetchOutcome α) (retries : Nat),
        (∀ i, i ≤ retries → retryable (fetch i)) →
        (request fetch retries).attempts = retries + 1
        ∧ (request fetch retries).delays
            = (List.range retries).map (fun k => 1000 * (k + 1))
        ∧ ∀ e, failureOf (fetch retries) = some e →
            (request fetch retries).result = Except.error e) := by
  refine ⟨rfl, ?_, ?_⟩
  · intro α fetch retries status message _ hlt hf
    cases retries <;> (rw [request, requestGo.eq_def]; simp [hf, hlt])
  · intro α fetch retries h
    have := requestGo_all_retryable fetch retries 0 (fun i h1 h2 => h i (by omega))
    refine ⟨this.1, ?_, ?_⟩
    · rw [request, this.2.1]
      exact List.map_congr_left fun k _ => by omega
    · intro e he
      exact this.2.2 e (by simpa using he)

/-- Witness for C3: a 404 on the first attempt with the default budget is
never retried, while permanent network failure exhausts both attempts. -/
theorem claim3_witness :
    request (fun _ => (FetchOutcome.httpErr 404 "Not Found" : FetchOutcome Unit))
        apiConfigRetries
      = ⟨Except.error (httpError 404 "Not Found"), 1, []⟩
    ∧ (request (fun _ => (FetchOutcome.netErr "Network request failed" : FetchOutcome Unit))
          apiConfigRetries).attempts = apiConfigRetries + 1 :=
  ⟨claim3_retry_policy.2.1 Unit _ apiConfigRetries 404 "Not Found"
      (by norm_num) (by norm_num) rfl,
   (claim3_retry_policy.2.2 Unit
      (fun _ => (FetchOutcome.netErr "Network request failed" : FetchOutcome Unit))
      apiConfigRetries (fun i _ => trivial)).1⟩

/-- Claim C6: every failing `loadTickets` fetch and every failing
`updateTicket` call (whatever failure message the API layer surfaces,
including a 500 after exhausted retries) records a non-null human-readable
error string and leaves the held ticket collection exactly as it was. -/
theorem claim6_failure_preserves_tickets :
    ∀ (s : TicketsState) (reset : Bool) (message id : String),
      ((loadTickets reset (.failure message) s).error = some message
        ∧ (loadTickets reset (.failure message) s).tickets = s.tickets)
      ∧ ((updateTicket id (.failure message) s).1.error = some message
        ∧ (updateTicket id (.failure message) s).1.tickets = s.tickets
        ∧ (updateTicket id (.failure message) s).2 = false) :=
  fun _ _ _ _ => ⟨⟨rfl, rfl⟩, rfl, rfl, rfl⟩

set_option maxHeartbeats 1000000 in
/-- `filteredTickets` factored as a single `List.filter` over the conjoined
per-ticket predicate. -/
lemma filteredTickets_eq_filter (tickets : List Ticket) (filters : TicketFilter)
    (searchQuery : String) :
    filteredTickets tickets filters searchQuery
      = tickets.filter (fun t => keepsTicket filters searchQuery t) := by
  obtain ⟨st, cat, pri, asg, sq⟩ := filters
  rcases st with _ | stl <;> rcases cat with _ | catl <;> rcases pri with _ | pril <;>
    rcases asg with _ | a <;>
    simp only [filteredTickets, keepsTicket] <;>
    split_ifs <;>
    (try simp only [List.filter_filter, Bool.and_true, Bool.true_and, List.filter_true]) <;>
    first
      | rfl
      | exact List.filter_congr fun t _ => by
          simp only [Bool.and_comm, Bool.and_assoc, Bool.and_left_comm]

/-- Claim C7 (amended): `filteredTickets` keeps exactly the tickets passing
every present constraint — status/category/priority membership for
non-empty arrays, assignee equality for a truthy assignee filter, and a
case-insensitive substring match of the *raw* (untrimmed) search query,
applied only when the trimmed query is non-blank; absent or empty fields
impose no constraint.  In particular `{status: ['open']}` keeps only open
tickets. -/
theorem claim7_filter_semantics :
    (∀ (tickets : List Ticket) (filters : TicketFilter) (searchQuery : String),
        filteredTickets tickets filters searchQuery
          = tickets.filter (fun t => keepsTicket filters searchQuery t))
    ∧ ∀ (tickets : List Ticket) (t : Ticket),
        t ∈ filteredTickets tickets openOnlyFilter "" → t.status = TicketStatus.open_ := by
  refine ⟨filteredTickets_eq_filter, ?_⟩
  intro tickets t ht
  rw [filteredTickets_eq_filter] at ht
  have hk := (List.mem_filter.mp ht).2
  have hemp : (jsTrim "").isEmpty = true := by decide
  simp [keepsTicket, openOnlyFilter, hemp] at hk
  exact hk

/-- Witness for C7 at a concrete one-ticket collection. -/
theorem claim7_witness : sampleTicketOpen.status = TicketStatus.open_ :=
  claim7_filter_semantics.2 [sampleTicketOpen] sampleTicketOpen (by decide)

/-- Counterexample for C7 as stated: with search query `"open "` the code
matches the *untrimmed* lower-cased query, so a ticket titled "Reopen" is
dropped even though the claim's trimmed-query predicate keeps it. -/
theorem claim7_counterexample :
    filteredTickets [sampleTicketReopen] emptyTicketFilter "open "
      ≠ [sampleTicketReopen].filter
          (fun t => keepsTicketClaim emptyTicketFilter "open " t) := by
  decide

set_option maxHeartbeats 1000000 in
/-- The category returned by `detectCategory` scores at least as high as
every category (the reduce computes a maximum). -/
lemma detectCategory_score_max (text : String) (c : TicketCategory) :
    categoryScore (jsToLower text) c
      ≤ categoryScore (jsToLower text) (detectCategory text) := by
  have hg : categoryScore (jsToLower text) TicketCategory.general = 0 := rfl
  have ho : categoryScore (jsToLower text) TicketCategory.other = 0 := rfl
  simp only [detectCategory]
  revert hg ho
  generalize categoryScore (jsToLower text) = sc
  intro hg ho
  simp only [List.foldl]
  split_ifs <;> rcases c <;> omega

set_option maxHeartbeats 4000000 in
/-- Among categories tied with the winner at a positive score, the winner
has the largest declaration index: `reduce((a, b) => score a > score b ? a : b)`
keeps the *later* entry on ties. -/
lemma detectCategory_tiebreak (text : String) (c : TicketCategory) :
    0 < categoryScore (jsToLower text) c →
    categoryScore (jsToLower text) c
      = categoryScore (jsToLower text) (detectCategory text) →
    declIdx c ≤ declIdx (detectCategory text) := by
  have hg : categoryScore (jsToLower text) TicketCategory.general = 0 := rfl
  have ho : categoryScore (jsToLower text) TicketCategory.other = 0 := rfl
  simp only [detectCategory]
  revert hg ho
  generalize categoryScore (jsToLower text) = sc
  intro hg ho hpos heq
  simp only [List.foldl] at heq ⊢
  split_ifs at heq ⊢ <;> rcases c <;> simp only [declIdx] at * <;> omega

/-- With no keyword match anywhere, the winning score is zero and GENERAL
is returned. -/
lemma detectCategory_all_zero (text : String)
    (h0 : ∀ c, categoryScore (jsToLower text) c = 0) :
    detectCategory text = TicketCategory.general := by
  simp only [detectCategory]
  revert h0
  generalize categoryScore (jsToLower text) = sc
  intro h0
  simp [h0]

/-- Claim C4 (amended): `detectCategory` lower-cases the text and counts
keyword substring matches per category; with no match anywhere it returns
GENERAL; otherwise it returns a category of strictly positive, maximal
score, and on ties the *last*-declared tied category in iteration order
(not the first) wins. -/
theorem claim4_category_heuristic :
    ∀ text : String,
      ((∀ c, categoryScore (jsToLower text) c = 0) →
        detectCategory text = TicketCategory.general)
      ∧ ((∃ c, 0 < categoryScore (jsToLower text) c) →
          0 < categoryScore (jsToLower text) (detectCategory text)
          ∧ (∀ c, categoryScore (jsToLower text) c
              ≤ categoryScore (jsToLower text) (detectCategory text))
          ∧ ∀ c, categoryScore (jsToLower text) c
                = categoryScore (jsToLower text) (detectCategory text) →
              declIdx c ≤ declIdx (detectCategory text)) := by
  intro text
  refine ⟨detectCategory_all_zero text, ?_⟩
  rintro ⟨c0, hc0⟩
  have hmax := detectCategory_score_max text
  have hpos : 0 < categoryScore (jsToLower text) (detectCategory text) :=
    lt_of_lt_of_le hc0 (hmax c0)
  exact ⟨hpos, hmax, fun c hceq =>
    detectCategory_tiebreak text c (by omega) hceq⟩

/-- Witness for C4: a keyword-free text maps to GENERAL, and a text scoring
on billing yields a winner of positive score. -/
theorem claim4_witness :
    detectCategory "zzz qqq" = TicketCategory.general
    ∧ 0 < categoryScore (jsToLower "payment bill")
        (detectCategory "payment bill") :=
  ⟨(claim4_category_heuristic "zzz qqq").1 (fun c => by cases c <;> decide),
   ((claim4_category_heuristic "payment bill").2 ⟨.billing, by decide⟩).1⟩

/-- Counterexample for C4 as stated: "payment account" ties billing and
account at score 1, and `detectCategory` returns ACCOUNT, the
later-declared tied category, not the first-declared BILLING. -/
theorem claim4_counterexample :
    detectCategory "payment account" = TicketCategory.account
    ∧ categoryScore (jsToLower "payment account") TicketCategory.billing
        = categoryScore (jsToLower "payment account") TicketCategory.account
    ∧ 0 < categoryScore (jsToLower "payment account") TicketCategory.billing
    ∧ declIdx TicketCategory.billing < declIdx TicketCategory.account := by
  refine ⟨by decide, by decide, by decide, by decide⟩



lemma noLead_dropWhile (l : List Char) : noLeadWs (l.dropWhile isWs) = true := by
  induction l with
  | nil => rfl
  | cons c t ih =>
    by_cases h : isWs c = true
    · simpa [List.dropWhile_cons, h] using ih
    · simp [List.dropWhile_cons, h, noLeadWs]

lemma trimLeft_eq_self {l : List Char} (h : noLeadWs l = true) :
    trimLeftChars l = l := by
  cases l with
  | nil => rfl
  | cons c t =>
    have hc : isWs c = false := by simpa [noLeadWs] using h
    simp [trimLeftChars, List.dropWhile_cons, hc]

lemma noLead_trimLeft (l : List Char) : noLeadWs (trimLeftChars l) = true :=
  noLead_dropWhile l

lemma noTrail_append_singleton (l : List Char) (c : Char) :
    noTrailWs (l ++ [c]) = !isWs c := by
  induction l with
  | nil => rfl
  | cons a t ih =>
    cases t with
    | nil => simp [noTrailWs]
    | cons b t' => simpa [noTrailWs] using ih

lemma trimRight_eq_self {l : List Char} (h : noTrailWs l = true) :
    trimRightChars l = l := by
  rcases List.eq_nil_or_concat l with rfl | ⟨L, c, rfl⟩
  · rfl
  · rw [List.concat_eq_append] at h ⊢
    have hc : isWs c = false := by
      rw [noTrail_append_singleton] at h
      simpa using h
    simp [trimRightChars, List.reverse_append, List.dropWhile_cons, hc]

lemma noTrail_trimRight (l : List Char) : noTrailWs (trimRightChars l) = true := by
  have h := noLead_dropWhile l.reverse
  rcases hr : l.reverse.dropWhile isWs with _ | ⟨c, t⟩
  · simp [trimRightChars, hr, noTrailWs]
  · rw [hr] at h
    have hc : isWs c = false := by simpa [noLeadWs] using h
    simp [trimRightChars, hr, noTrail_append_singleton, hc]

lemma trimRight_append (l : List Char) :
    trimRightChars l ++ (l.reverse.takeWhile isWs).reverse = l := by
  have h := congrArg List.reverse
    (List.takeWhile_append_dropWhile (p := isWs) (l := l.reverse))
  rw [List.reverse_append, List.reverse_reverse] at h
  exact h

lemma noWsRun_tail {c : Char} {t : List Char} (h : noWsRun (c :: t) = true) :
    noWsRun t = true := by
  cases t with
  | nil => rfl
  | cons d t' =>
    simp only [noWsRun, Bool.and_eq_true] at h
    exact h.2

lemma noWsRun_append_left {l r : List Char} (h : noWsRun (l ++ r) = true) :
    noWsRun l = true := by
  induction l with
  | nil => rfl
  | cons c t ih =>
    cases t with
    | nil => rfl
    | cons d t' =>
      simp only [List.cons_append, noWsRun, Bool.and_eq_true] at h ⊢
      exact ⟨h.1, by simpa using ih (by simpa using h.2)⟩

lemma noLead_append_left {l r : List Char} (h : noLeadWs (l ++ r) = true) :
    noLeadWs l = true := by
  cases l with
  | nil => rfl
  | cons c t => simpa [noLeadWs] using h

lemma wsAllSpace_append_left {l r : List Char} (h : wsAllSpace (l ++ r) = true) :
    wsAllSpace l = true := by
  simp only [wsAllSpace, List.all_append, Bool.and_eq_true] at h
  exact h.1

lemma noLead_collapse_true (l : List Char) :
    noLeadWs (collapseWsAux true l) = true := by
  induction l with
  | nil => rfl
  | cons c t ih =>
    by_cases h : isWs c = true
    · simpa [collapseWsAux, h] using ih
    · simp [collapseWsAux, h, noLeadWs]

lemma noWsRun_collapse (l : List Char) : ∀ p, noWsRun (collapseWsAux p l) = true := by
  induction l with
  | nil => intro p; rfl
  | cons c t ih =>
    intro p
    by_cases h : isWs c = true
    · cases p with
      | true => simpa [collapseWsAux, h] using ih true
      | false =>
        simp only [collapseWsAux, h, if_true]
        rcases hr : collapseWsAux true t with _ | ⟨d, r'⟩
        · rfl
        · have hd : isWs d = false := by
            have hx := noLead_collapse_true t
            rw [hr] at hx
            simpa [noLeadWs] using hx
          have hd2 : d.isWhitespace = false := hd
          have hrun := ih true
          rw [hr] at hrun
          simp [noWsRun, hd2, hrun, isWs]
    · simp only [collapseWsAux, h, if_false, Bool.false_eq_true]
      rcases hr : collapseWsAux false t with _ | ⟨d, r'⟩
      · rfl
      · have hrun := ih false
        rw [hr] at hrun
        simp [noWsRun, h, hrun]

lemma wsAllSpace_collapse (l : List Char) : ∀ p, wsAllSpace (collapseWsAux p l) = true := by
  induction l with
  | nil => intro p; rfl
  | cons c t ih =>
    intro p
    by_cases h : isWs c = true
    · cases p with
      | true => simpa [collapseWsAux, h] using ih true
      | false =>
        simp only [collapseWsAux, h, if_true]
        simpa [wsAllSpace, List.all_cons] using ih true
    · simp only [collapseWsAux, h, if_false, Bool.false_eq_true]
      simp only [wsAllSpace, List.all_cons, Bool.and_eq_true]
      refine ⟨?_, ih false⟩
      have hc : isWs c = false := by simpa using h
      simp [hc]

lemma noLead_collapse_false {l : List Char} (h : noLeadWs l = true) :
    noLeadWs (collapseWsAux false l) = true := by
  cases l with
  | nil => rfl
  | cons c t =>
    have hc : isWs c = false := by simpa [noLeadWs] using h
    simp [collapseWsAux, hc, noLeadWs]

lemma collapse_ne_nil {l : List Char} (h : ∃ c ∈ l, isWs c = false) :
    ∀ p, collapseWsAux p l ≠ [] := by
  induction l with
  | nil => rcases h with ⟨c, hc, _⟩; cases hc
  | cons c t ih =>
    intro p
    by_cases hc : isWs c = true
    · have ht : ∃ d ∈ t, isWs d = false := by
        rcases h with ⟨d, hd, hdw⟩
        rcases List.mem_cons.mp hd with rfl | hd2
        · rw [hc] at hdw; cases hdw
        · exact ⟨d, hd2, hdw⟩
      cases p with
      | true => simpa [collapseWsAux, hc] using ih ht true
      | false => simp [collapseWsAux, hc]
    · simp [collapseWsAux, hc]

lemma noTrail_exists_nonws {l : List Char} (h : noTrailWs l = true) (hne : l ≠ []) :
    ∃ c ∈ l, isWs c = false := by
  rcases List.eq_nil_or_concat l with rfl | ⟨L, c, rfl⟩
  · exact absurd rfl hne
  · rw [List.concat_eq_append] at h ⊢
    rw [noTrail_append_singleton] at h
    exact ⟨c, by simp, by simpa using h⟩

lemma collapse_cons_ws_false {c : Char} {t : List Char} (hc : isWs c = true) :
    collapseWsAux false (c :: t) = ' ' :: collapseWsAux true t := by
  simp [collapseWsAux, hc]

lemma collapse_cons_ws_true {c : Char} {t : List Char} (hc : isWs c = true) :
    collapseWsAux true (c :: t) = collapseWsAux true t := by
  simp [collapseWsAux, hc]

lemma collapse_cons_nonws {c : Char} {t : List Char} {p : Bool} (hc : isWs c = false) :
    collapseWsAux p (c :: t) = c :: collapseWsAux false t := by
  simp [collapseWsAux, hc]

lemma noTrail_collapse (l : List Char) :
    ∀ p, noTrailWs l = true → noTrailWs (collapseWsAux p l) = true := by
  induction l with
  | nil => intro p _; rfl
  | cons c t ih =>
    intro p h
    cases t with
    | nil =>
      have hc : isWs c = false := by simpa [noTrailWs] using h
      rw [collapse_cons_nonws hc]
      simp [collapseWsAux, noTrailWs, hc]
    | cons d t' =>
      have h2 : noTrailWs (d :: t') = true := by simpa [noTrailWs] using h
      by_cases hc : isWs c = true
      · cases p with
        | true =>
          rw [collapse_cons_ws_true hc]
          exact ih true h2
        | false =>
          rw [collapse_cons_ws_false hc]
          have hne : collapseWsAux true (d :: t') ≠ [] :=
            collapse_ne_nil (noTrail_exists_nonws h2 (by simp)) true
          rcases hr : collapseWsAux true (d :: t') with _ | ⟨e, r'⟩
          · exact absurd hr hne
          · have hx := ih true h2
            rw [hr] at hx
            simpa [noTrailWs] using hx
      · have hcf : isWs c = false := by simpa using hc
        rw [collapse_cons_nonws hcf]
        rcases hr : collapseWsAux false (d :: t') with _ | ⟨e, r'⟩
        · simp [noTrailWs, hcf]
        · have hx := ih false h2
          rw [hr] at hx
          simpa [noTrailWs] using hx

lemma collapse_fixed (l : List Char) :
    ∀ p, wsAllSpace l = true → noWsRun l = true →
      (p = true → noLeadWs l = true) → collapseWsAux p l = l := by
  induction l with
  | nil => intro p _ _ _; rfl
  | cons c t ih =>
    intro p hall hrun hp
    have hall2 : wsAllSpace t = true := by
      simp only [wsAllSpace, List.all_cons, Bool.and_eq_true] at hall
      exact hall.2
    have hrun2 : noWsRun t = true := noWsRun_tail hrun
    by_cases hc : isWs c = true
    · have hpf : p = false := by
        cases p with
        | false => rfl
        | true =>
          have hx := hp rfl
          simp [noLeadWs, hc] at hx
      subst hpf
      have hsp : c = ' ' := by
        simp only [wsAllSpace, List.all_cons, Bool.and_eq_true] at hall
        have h1 := hall.1
        rw [hc] at h1
        simpa using h1
      have hleadt : noLeadWs t = true := by
        cases t with
        | nil => rfl
        | cons d t' =>
          simp only [noWsRun, Bool.and_eq_true] at hrun
          have hx := hrun.1
          rw [hc] at hx
          simpa [noLeadWs] using hx
      rw [collapse_cons_ws_false hc, ih true hall2 hrun2 fun _ => hleadt, hsp]
    · have hcf : isWs c = false := by simpa using hc
      rw [collapse_cons_nonws hcf, ih false hall2 hrun2 fun hq => nomatch hq]

lemma noLead_trimRight_of {x : List Char} (h : noLeadWs x = true) :
    noLeadWs (trimRightChars x) = true :=
  noLead_append_left (l := trimRightChars x) (by rw [trimRight_append]; exact h)

lemma noWsRun_trimRight_of {x : List Char} (h : noWsRun x = true) :
    noWsRun (trimRightChars x) = true :=
  noWsRun_append_left (l := trimRightChars x) (by rw [trimRight_append]; exact h)

lemma wsAllSpace_trimRight_of {x : List Char} (h : wsAllSpace x = true) :
    wsAllSpace (trimRightChars x) = true :=
  wsAllSpace_append_left (l := trimRightChars x) (by rw [trimRight_append]; exact h)

lemma noWsRun_takeWhile {m : List Char} {q : Char → Bool} (h : noWsRun m = true) :
    noWsRun (m.takeWhile q) = true :=
  noWsRun_append_left (l := m.takeWhile q)
    (by rw [List.takeWhile_append_dropWhile]; exact h)

lemma wsAllSpace_takeWhile {m : List Char} {q : Char → Bool} (h : wsAllSpace m = true) :
    wsAllSpace (m.takeWhile q) = true :=
  wsAllSpace_append_left (l := m.takeWhile q)
    (by rw [List.takeWhile_append_dropWhile]; exact h)

lemma noLead_takeWhile {m : List Char} {q : Char → Bool} (h : noLeadWs m = true) :
    noLeadWs (m.takeWhile q) = true := by
  cases m with
  | nil => rfl
  | cons c t =>
    by_cases hq : q c = true
    · simpa [List.takeWhile_cons, hq, noLeadWs] using h
    · simp [List.takeWhile_cons, hq, noLeadWs]

lemma noWsRun_take {m : List Char} {n : Nat} (h : noWsRun m = true) :
    noWsRun (m.take n) = true :=
  noWsRun_append_left (l := m.take n) (by rw [List.take_append_drop]; exact h)

lemma wsAllSpace_take {m : List Char} {n : Nat} (h : wsAllSpace m = true) :
    wsAllSpace (m.take n) = true :=
  wsAllSpace_append_left (l := m.take n) (by rw [List.take_append_drop]; exact h)

lemma noLead_take {m : List Char} {n : Nat} (h : noLeadWs m = true) :
    noLeadWs (m.take n) = true := by
  cases m with
  | nil => simp [noLeadWs]
  | cons c t =>
    cases n with
    | zero => rfl
    | succ k => simpa [List.take_succ_cons, noLeadWs] using h

lemma trimRight_length_le (x : List Char) :
    (trimRightChars x).length ≤ x.length := by
  have h := congrArg List.length (trimRight_append x)
  rw [List.length_append] at h
  omega

lemma trimChars_length_le (x : List Char) :
    (trimChars x).length ≤ x.length := by
  have h1 : (trimLeftChars x).length ≤ x.length := by
    have h := congrArg List.length (List.takeWhile_append_dropWhile (p := isWs) (l := x))
    rw [List.length_append] at h
    simp only [trimLeftChars]
    omega
  exact le_trans (trimRight_length_le (trimLeftChars x)) h1

lemma clean_noLead (l : List Char) : noLeadWs (cleanChars l) = true :=
  noLead_collapse_false (noLead_trimRight_of (noLead_trimLeft l))

lemma clean_noTrail (l : List Char) : noTrailWs (cleanChars l) = true :=
  noTrail_collapse _ false (noTrail_trimRight (trimLeftChars l))

lemma clean_noWsRun (l : List Char) : noWsRun (cleanChars l) = true :=
  noWsRun_collapse _ false

lemma clean_wsAllSpace (l : List Char) : wsAllSpace (cleanChars l) = true :=
  wsAllSpace_collapse _ false

lemma trim_eq_self {m : List Char} (h1 : noLeadWs m = true) (h2 : noTrailWs m = true) :
    trimChars m = m := by
  show trimRightChars (trimLeftChars m) = m
  rw [trimLeft_eq_self h1, trimRight_eq_self h2]

lemma clean_eq_self {m : List Char} (h1 : noLeadWs m = true) (h2 : noTrailWs m = true)
    (h3 : noWsRun m = true) (h4 : wsAllSpace m = true) : cleanChars m = m := by
  show collapseWsAux false (trimChars m) = m
  rw [trim_eq_self h1 h2]
  exact collapse_fixed m false h4 h3 fun hq => nomatch hq

lemma clean_of_partial {x : List Char} (h1 : noLeadWs x = true)
    (h3 : noWsRun x = true) (h4 : wsAllSpace x = true) :
    cleanChars x = trimRightChars x ∧ trimChars x = trimRightChars x := by
  have htr : trimChars x = trimRightChars x := by
    show trimRightChars (trimLeftChars x) = trimRightChars x
    rw [trimLeft_eq_self h1]
  refine ⟨?_, htr⟩
  show collapseWsAux false (trimChars x) = trimRightChars x
  rw [htr]
  exact collapse_fixed _ false (wsAllSpace_trimRight_of h4) (noWsRun_trimRight_of h3)
    fun hq => nomatch hq

lemma noLead_append_dots {u : List Char} (h : noLeadWs u = true) :
    noLeadWs (u ++ ['.', '.', '.']) = true := by
  cases u with
  | nil => decide
  | cons c t => simpa [noLeadWs] using h

lemma noTrail_append_dots (u : List Char) :
    noTrailWs (u ++ ['.', '.', '.']) = true := by
  rw [show u ++ ['.', '.', '.'] = (u ++ ['.', '.']) ++ ['.'] by simp]
  rw [noTrail_append_singleton]
  decide

lemma wsAllSpace_append_dots {u : List Char} (h : wsAllSpace u = true) :
    wsAllSpace (u ++ ['.', '.', '.']) = true := by
  simp only [wsAllSpace, List.all_append, Bool.and_eq_true]
  exact ⟨h, by decide⟩

lemma noWsRun_append_dots {u : List Char} (hrun : noWsRun u = true)
    (htr : noTrailWs u = true) : noWsRun (u ++ ['.', '.', '.']) = true := by
  induction u with
  | nil => decide
  | cons c t ih =>
    cases t with
    | nil =>
      have hc : isWs c = false := by simpa [noTrailWs] using htr
      have hc2 : c.isWhitespace = false := hc
      simp [noWsRun, isWs, hc2]
    | cons d t' =>
      have htr2 : noTrailWs (d :: t') = true := by simpa [noTrailWs] using htr
      have hrun2 : noWsRun (d :: t') = true := noWsRun_tail hrun
      simp only [List.cons_append, noWsRun, Bool.and_eq_true] at hrun ⊢
      exact ⟨hrun.1, by simpa using ih hrun2 htr2⟩

/-- Claim C5 (amended): applying `generateIssueTitle` twice equals trimming
the surrounding whitespace of a single application; in particular the
derivation is idempotent exactly when the derived title carries no trailing
whitespace (the first-sentence branch can return a segment with one
trailing space, which a second pass trims). -/
theorem claim5_title_trim (s : String) :
    generateIssueTitle (generateIssueTitle s)
      = String.mk (trimChars (generateIssueTitle s).data) := by
  by_cases h1 : (cleanChars s.data).length ≤ 60
  · have hgs : generateIssueTitle s = String.mk (cleanChars s.data) := by
      simp only [generateIssueTitle]
      rw [if_pos h1]
    have c1 := clean_noLead s.data
    have c2 := clean_noTrail s.data
    have c3 := clean_noWsRun s.data
    have c4 := clean_wsAllSpace s.data
    rw [hgs]
    show generateIssueTitle (String.mk (cleanChars s.data))
      = String.mk (trimChars (cleanChars s.data))
    rw [trim_eq_self c1 c2]
    simp only [generateIssueTitle]
    rw [clean_eq_self c1 c2 c3 c4, if_pos h1]
  · by_cases h2 : ((cleanChars s.data).takeWhile (fun c => c ≠ '.')).length ≤ 60
    · have hgs : generateIssueTitle s
          = String.mk ((cleanChars s.data).takeWhile (fun c => c ≠ '.')) := by
        simp only [generateIssueTitle]
        rw [if_neg h1, if_pos h2]
      have f1 : noLeadWs ((cleanChars s.data).takeWhile (fun c => c ≠ '.')) = true :=
        noLead_takeWhile (clean_noLead s.data)
      have f3 : noWsRun ((cleanChars s.data).takeWhile (fun c => c ≠ '.')) = true :=
        noWsRun_takeWhile (clean_noWsRun s.data)
      have f4 : wsAllSpace ((cleanChars s.data).takeWhile (fun c => c ≠ '.')) = true :=
        wsAllSpace_takeWhile (clean_wsAllSpace s.data)
      have hcp := clean_of_partial f1 f3 f4
      have hlen : (trimRightChars ((cleanChars s.data).takeWhile (fun c => c ≠ '.'))).length ≤ 60 :=
        le_trans (trimRight_length_le _) h2
      rw [hgs]
      show generateIssueTitle (String.mk ((cleanChars s.data).takeWhile (fun c => c ≠ '.')))
        = String.mk (trimChars ((cleanChars s.data).takeWhile (fun c => c ≠ '.')))
      rw [hcp.2]
      simp only [generateIssueTitle]
      rw [hcp.1, if_pos hlen]
    · have hgs : generateIssueTitle s
          = String.mk (trimChars ((cleanChars s.data).take 50) ++ ['.', '.', '.']) := by
        simp only [generateIssueTitle]
        rw [if_neg h1, if_neg h2]
      have t1 : noLeadWs ((cleanChars s.data).take 50) = true :=
        noLead_take (clean_noLead s.data)
      have t3 : noWsRun ((cleanChars s.data).take 50) = true :=
        noWsRun_take (clean_noWsRun s.data)
      have t4 : wsAllSpace ((cleanChars s.data).take 50) = true :=
        wsAllSpace_take (clean_wsAllSpace s.data)
      have hu2 : trimChars ((cleanChars s.data).take 50)
          = trimRightChars ((cleanChars s.data).take 50) := by
        show trimRightChars (trimLeftChars _) = _
        rw [trimLeft_eq_self t1]
      have u1 : noLeadWs (trimChars ((cleanChars s.data).take 50)) = true := by
        rw [hu2]; exact noLead_trimRight_of t1
      have u2 : noTrailWs (trimChars ((cleanChars s.data).take 50)) = true := by
        rw [hu2]; exact noTrail_trimRight _
      have u3 : noWsRun (trimChars ((cleanChars s.data).take 50)) = true := by
        rw [hu2]; exact noWsRun_trimRight_of t3
      have u4 : wsAllSpace (trimChars ((cleanChars s.data).take 50)) = true := by
        rw [hu2]; exact wsAllSpace_trimRight_of t4
      have r1 := noLead_append_dots u1
      have r2 := noTrail_append_dots (trimChars ((cleanChars s.data).take 50))
      have r3 := noWsRun_append_dots u3 u2
      have r4 := wsAllSpace_append_dots u4
      have hlen : (trimChars ((cleanChars s.data).take 50) ++ ['.', '.', '.']).length ≤ 60 := by
        have ha := trimChars_length_le ((cleanChars s.data).take 50)
        have hb : ((cleanChars s.data).take 50).length ≤ 50 := by
          simp [List.length_take]
        simp only [List.length_append]
        simp only [List.length_cons, List.length_nil]
        omega
      rw [hgs]
      show generateIssueTitle
          (String.mk (trimChars ((cleanChars s.data).take 50) ++ ['.', '.', '.']))
        = String.mk (trimChars (trimChars ((cleanChars s.data).take 50) ++ ['.', '.', '.']))
      rw [trim_eq_self r1 r2]
      simp only [generateIssueTitle]
      rw [clean_eq_self r1 r2 r3 r4, if_pos hlen]


/-- Counterexample for C5 as stated: the first-sentence branch of
`generateIssueTitle` keeps the space before the period, and re-deriving
trims it, so the derivation is not idempotent. -/
theorem claim5_counterexample :
    generateIssueTitle (generateIssueTitle badTitleInput)
      ≠ generateIssueTitle badTitleInput := by
  decide

end SupportFrontend
